import Mathlib

/-!
# Portfolio rebalancer: shallow embedding of the valuation engine

This file embeds the pure computation layer of the portfolio tracker
(asset valuation, allocation percentages, P&L, rebalance planning,
health scoring, sorting, and the state-mutating list operations) as Lean
definitions over exact rational arithmetic, and proves the specified
properties about them.

JavaScript `x || y` on numbers yields `y` when `x` is falsy (`0`, `-0`,
`NaN`, `undefined`); on an always-defined rational field this is
`if x = 0 then y else x`, written `jsOr` below.  Numeric user input goes
through `parseFloat(value) || 0`; we model the parse result as
`Option ℚ` (`none` for `NaN`) and the coercion as `parseFloatOr0`.
Optional-chaining reads from the price-fetch response
(`data[id]?.eur || fallback`) are modelled by `optOr` over `Option ℚ`.
`Array.prototype.sort` is required by ECMAScript to be stable; with the
consistent comparator used by the source it computes the unique stable
sort, which `List.mergeSort` also computes, so `sortedAssets` is
embedded via `mergeSort`.
-/

namespace Portfolio

/-- One tracked holding, as stored in the asset list (the object built by
`addAsset`: id/symbol/name/thumb identity, numeric `holdings`,
`targetPercent`, `buyPrice`, optional `category`, the two price fields and
`change24h`). -/
structure Asset where
  id : String
  symbol : String
  name : String
  thumb : String
  holdings : ℚ
  targetPercent : ℚ
  buyPrice : ℚ
  category : Option String
  priceEur : ℚ
  priceUsd : ℚ
  change24h : ℚ
deriving DecidableEq

/-- The global currency selection: `'eur'` or `'usd'`. -/
inductive Currency where
  | eur
  | usd
deriving DecidableEq

/-- JavaScript `x || y` on two numbers: `y` when `x` is falsy (zero), else `x`. -/
def jsOr (x y : ℚ) : ℚ :=
  if x = 0 then y else x

/-- JavaScript `parseFloat(value) || 0`: an unparsable input (`NaN`,
modelled as `none`) is coerced to `0`; a parsed number is kept
(`x || 0 = x` for every number `x`, since `0 || 0 = 0`). -/
def parseFloatOr0 (v : Option ℚ) : ℚ :=
  match v with
  | none => 0
  | some x => jsOr x 0

/-- `currency === 'eur' ? asset.priceEur : asset.priceUsd`. -/
def priceIn (c : Currency) (a : Asset) : ℚ :=
  match c with
  | .eur => a.priceEur
  | .usd => a.priceUsd

/-- `getAssetValue`: `asset.holdings * (price || 0)` where `price` is the
stored price in the selected currency. -/
def getAssetValue (c : Currency) (a : Asset) : ℚ :=
  a.holdings * jsOr (priceIn c a) 0

/-- `totalValue`: the reduce in the total-value effect,
`assets.reduce((sum, asset) => sum + asset.holdings * (price || 0), 0)`. -/
def totalValue (c : Currency) (assets : List Asset) : ℚ :=
  assets.foldl (fun sum a => sum + a.holdings * jsOr (priceIn c a) 0) 0

/-- `getCurrentPercent`: `0` when `totalValue === 0`, else
`getAssetValue(asset) / totalValue * 100`. -/
def getCurrentPercent (c : Currency) (assets : List Asset) (a : Asset) : ℚ :=
  if totalValue c assets = 0 then 0
  else getAssetValue c a / totalValue c assets * 100

/-- The `action` field of a rebalance recommendation. -/
inductive Direction where
  | BUY
  | SELL
deriving DecidableEq

/-- The object returned by `getRebalanceAction` when not balanced. -/
structure RebalanceAction where
  action : Direction
  amount : ℚ
  units : ℚ
deriving DecidableEq

/-- `getRebalanceAction`: `targetValue = (targetPercent || 0) / 100 *
totalValue`, `difference = targetValue − currentValue`; `null` when
`Math.abs(difference) < 1`, else BUY/SELL of `|difference|` with
`units = price > 0 ? Math.abs(difference / price) : 0`. -/
def getRebalanceAction (c : Currency) (assets : List Asset) (a : Asset) :
    Option RebalanceAction :=
  let currentValue := getAssetValue c a
  let targetValue := jsOr a.targetPercent 0 / 100 * totalValue c assets
  let difference := targetValue - currentValue
  let price := priceIn c a
  if |difference| < 1 then none
  else some
    { action := if difference > 0 then .BUY else .SELL
      amount := |difference|
      units := if price > 0 then |difference / price| else 0 }

/-- `totalPnL`: reduce of `currentValue - costBasis` with
`currentValue = holdings * (price || 0)` and
`costBasis = holdings * (buyPrice || 0)`. -/
def totalPnL (c : Currency) (assets : List Asset) : ℚ :=
  assets.foldl
    (fun sum a =>
      sum + (a.holdings * jsOr (priceIn c a) 0 - a.holdings * jsOr a.buyPrice 0)) 0

/-- `totalCostBasis`: reduce of `holdings * (buyPrice || 0)`. -/
def totalCostBasis (assets : List Asset) : ℚ :=
  assets.foldl (fun sum a => sum + a.holdings * jsOr a.buyPrice 0) 0

/-- `pnlPercent = totalCostBasis > 0 ? (totalPnL / totalCostBasis) * 100 : 0`. -/
def pnlPercent (c : Currency) (assets : List Asset) : ℚ :=
  if totalCostBasis assets > 0 then totalPnL c assets / totalCostBasis assets * 100
  else 0

/-- `calculateHealthScore`: `100` when the list is empty or `totalValue === 0`;
otherwise `Math.round(Math.max(0, 100 - totalDeviation / 2))` where
`totalDeviation` is the reduce of
`Math.abs((getAssetValue(asset) / totalValue) * 100 - (asset.targetPercent || 0))`.
JavaScript `Math.round x = ⌊x + 1/2⌋`, which is Mathlib's `round`. -/
def calculateHealthScore (c : Currency) (assets : List Asset) : ℤ :=
  if assets.length = 0 ∨ totalValue c assets = 0 then 100
  else
    let tv := totalValue c assets
    let totalDeviation := assets.foldl
      (fun sum a => sum + |getAssetValue c a / tv * 100 - jsOr a.targetPercent 0|) 0
    round (max 0 (100 - totalDeviation / 2))

/-- The comparator of `sortedAssets`,
`(b.holdings * (priceB || 0)) - (a.holdings * (priceA || 0))`, read as the
total preorder it induces: `a` precedes `b` when the comparator is `≤ 0`,
i.e. when `value(b) ≤ value(a)` (descending by value). -/
def valueLe (c : Currency) (a b : Asset) : Bool :=
  decide (getAssetValue c b ≤ getAssetValue c a)

/-- `sortedAssets = [...assets].sort(comparator)`: ECMAScript sort is
stable, so with this consistent comparator it computes exactly the stable
descending-by-value sort, i.e. `mergeSort` with `valueLe`. -/
def sortedAssets (c : Currency) (assets : List Asset) : List Asset :=
  assets.mergeSort (valueLe c)

/-- A search result selected by the user (`coin` in `addAsset`). -/
structure Coin where
  id : String
  symbol : String
  name : String
  thumb : String
deriving DecidableEq

/-- `addAsset`: a no-op when an asset with the coin's id already exists,
else appends the fresh asset with all numeric fields `0` and no category. -/
def addAsset (assets : List Asset) (coin : Coin) : List Asset :=
  if assets.any (fun a => a.id = coin.id) then assets
  else assets ++
    [{ id := coin.id
       symbol := coin.symbol.toUpper
       name := coin.name
       thumb := coin.thumb
       holdings := 0
       targetPercent := 0
       buyPrice := 0
       category := none
       priceEur := 0
       priceUsd := 0
       change24h := 0 }]

/-- `removeAsset`: `assets.filter(a => a.id !== id)`. -/
def removeAsset (assets : List Asset) (id : String) : List Asset :=
  assets.filter (fun a => a.id ≠ id)

/-- The `(field, value)` argument pair of `updateAsset`: the numeric fields
carry the `parseFloat` result (`none` for `NaN`), `category` carries the
raw value (`'safe'`, `'risky'` or `null`). -/
inductive FieldUpdate where
  | holdings (v : Option ℚ)
  | buyPrice (v : Option ℚ)
  | targetPercent (v : Option ℚ)
  | category (v : Option String)
deriving DecidableEq

/-- The per-asset update of `updateAsset`:
`{ ...a, [field]: field === 'category' ? value : (parseFloat(value) || 0) }`. -/
def applyField (a : Asset) : FieldUpdate → Asset
  | .holdings v => { a with holdings := parseFloatOr0 v }
  | .buyPrice v => { a with buyPrice := parseFloatOr0 v }
  | .targetPercent v => { a with targetPercent := parseFloatOr0 v }
  | .category v => { a with category := v }

/-- `updateAsset` (the v2 component): map over the list, rewriting the
asset whose id matches. -/
def updateAsset (assets : List Asset) (id : String) (f : FieldUpdate) :
    List Asset :=
  assets.map (fun a => if a.id = id then applyField a f else a)

/-- `updateHoldings` (the earlier `App.jsx` variant):
`{ ...a, holdings: parseFloat(value) || 0 }` on the matching id. -/
def updateHoldings (assets : List Asset) (id : String) (v : Option ℚ) :
    List Asset :=
  assets.map (fun a => if a.id = id then { a with holdings := parseFloatOr0 v } else a)

/-- `updateTarget` (the earlier `App.jsx` variant):
`Math.min(100, Math.max(0, parseFloat(value) || 0))` on the matching id. -/
def updateTarget (assets : List Asset) (id : String) (v : Option ℚ) :
    List Asset :=
  let newValue := min 100 (max 0 (parseFloatOr0 v))
  assets.map (fun a => if a.id = id then { a with targetPercent := newValue } else a)

/-- One id's record in the batch price response:
`{ eur, usd, eur_24h_change }`, each field possibly missing. -/
structure PriceEntry where
  eur : Option ℚ
  usd : Option ℚ
  eur24hChange : Option ℚ
deriving DecidableEq

/-- Optional-chained falsy coalescing `data[id]?.f || y`: an absent record
or field (`none`) and a present `0` both fall through to `y`. -/
def optOr (x : Option ℚ) (y : ℚ) : ℚ :=
  match x with
  | none => y
  | some v => if v = 0 then y else v

/-- The per-asset merge of `fetchPrices`:
`{ ...asset, priceEur: data[id]?.eur || asset.priceEur || 0,
priceUsd: data[id]?.usd || asset.priceUsd || 0,
change24h: data[id]?.eur_24h_change || 0 }`. -/
def mergeOne (resp : String → Option PriceEntry) (a : Asset) : Asset :=
  { a with
    priceEur := optOr ((resp a.id).bind PriceEntry.eur) (jsOr a.priceEur 0)
    priceUsd := optOr ((resp a.id).bind PriceEntry.usd) (jsOr a.priceUsd 0)
    change24h := optOr ((resp a.id).bind PriceEntry.eur24hChange) 0 }

/-- The state update on completion of a bulk price fetch:
`setAssets(prev => prev.map(asset => ...))` with the merge above. -/
def fetchPricesMerge (resp : String → Option PriceEntry) (assets : List Asset) :
    List Asset :=
  assets.map (mergeOne resp)

/-- The non-price fields of an asset, used to state that the price-refresh
merge leaves everything except the price fields and `change24h` unchanged. -/
def nonPriceFields (a : Asset) :
    String × String × String × String × ℚ × ℚ × ℚ × Option String :=
  (a.id, a.symbol, a.name, a.thumb, a.holdings, a.targetPercent, a.buyPrice,
    a.category)

/-! ## Helper lemmas -/

/-- `x || 0` is the identity on an always-defined number. -/
@[simp] theorem jsOr_zero (x : ℚ) : jsOr x 0 = x := by
  unfold jsOr
  split <;> simp_all

/-- A left fold accumulating `+ f a` is the sum of the mapped list. -/
theorem foldl_add_sum {α : Type} (f : α → ℚ) (init : ℚ) (l : List α) :
    l.foldl (fun s a => s + f a) init = init + (l.map f).sum := by
  induction l generalizing init with
  | nil => simp
  | cons x xs ih => simp [ih, add_assoc]

/-- The total-value reduce is the sum of the per-asset values. -/
theorem totalValue_eq_sum (c : Currency) (assets : List Asset) :
    totalValue c assets = (assets.map (getAssetValue c)).sum := by
  unfold totalValue getAssetValue
  rw [foldl_add_sum]
  simp

/-! ## C1: the rebalance planner -/

/-- C1: for every asset list, currency and asset, `getRebalanceAction`
returns no action exactly when `|difference| < 1`, where
`difference = targetPercent/100 × totalValue − value` and `totalValue` is
the sum of per-asset values; otherwise it returns BUY when the difference
is positive and SELL otherwise (hence SELL exactly when it is negative,
since `|difference| ≥ 1`), `amount = |difference|`, and
`units = |difference / price|` for a positive price and `0` otherwise
(in particular for price `0`). -/
theorem getRebalanceAction_spec (c : Currency) (assets : List Asset) (a : Asset) :
    (getRebalanceAction c assets a = none ↔
      |a.targetPercent / 100 * (assets.map (getAssetValue c)).sum -
        getAssetValue c a| < 1) ∧
    (1 ≤ |a.targetPercent / 100 * (assets.map (getAssetValue c)).sum -
        getAssetValue c a| →
      getRebalanceAction c assets a = some
        { action :=
            if 0 < a.targetPercent / 100 * (assets.map (getAssetValue c)).sum -
                getAssetValue c a
            then Direction.BUY else Direction.SELL
          amount := |a.targetPercent / 100 * (assets.map (getAssetValue c)).sum -
            getAssetValue c a|
          units :=
            if 0 < priceIn c a
            then |(a.targetPercent / 100 * (assets.map (getAssetValue c)).sum -
              getAssetValue c a) / priceIn c a|
            else 0 }) := by
  have he : getRebalanceAction c assets a =
      if |a.targetPercent / 100 * (assets.map (getAssetValue c)).sum -
          getAssetValue c a| < 1 then none
      else some
        { action :=
            if 0 < a.targetPercent / 100 * (assets.map (getAssetValue c)).sum -
                getAssetValue c a
            then Direction.BUY else Direction.SELL
          amount := |a.targetPercent / 100 * (assets.map (getAssetValue c)).sum -
            getAssetValue c a|
          units :=
            if 0 < priceIn c a
            then |(a.targetPercent / 100 * (assets.map (getAssetValue c)).sum -
              getAssetValue c a) / priceIn c a|
            else 0 } := by
    simp only [getRebalanceAction, jsOr_zero, totalValue_eq_sum]
  constructor
  · rw [he]
    split <;> simp_all
  · intro h
    rw [he, if_neg (not_lt.mpr h)]

/-- A concrete asset for the planner witness: one unit held at price 100,
target 0 %, so the difference is −100 and the planner sells 1 unit. -/
def wAsset1 : Asset :=
  { id := "bitcoin", symbol := "BTC", name := "Bitcoin", thumb := ""
    holdings := 1, targetPercent := 0, buyPrice := 80, category := none
    priceEur := 100, priceUsd := 110, change24h := 2 }

/-- Witness for C1 at a concrete input: the deadband hypothesis holds
(`|−100| ≥ 1`) and the planner returns SELL of 100, 1 unit. -/
theorem getRebalanceAction_spec_witness :
    (1 : ℚ) ≤ |wAsset1.targetPercent / 100 *
        (([wAsset1]).map (getAssetValue .eur)).sum - getAssetValue .eur wAsset1| ∧
    getRebalanceAction .eur [wAsset1] wAsset1 =
      some { action := Direction.SELL, amount := 100, units := 1 } := by
  have h1 : (1 : ℚ) ≤ |wAsset1.targetPercent / 100 *
      (([wAsset1]).map (getAssetValue .eur)).sum - getAssetValue .eur wAsset1| := by
    norm_num [wAsset1, getAssetValue, priceIn, jsOr]
  refine ⟨h1, ?_⟩
  have h2 := (getRebalanceAction_spec .eur [wAsset1] wAsset1).2 h1
  rw [h2]
  norm_num [wAsset1, getAssetValue, priceIn, jsOr]

/-! ## C2: current percent is total and guards division by zero -/

/-- C2: `getCurrentPercent` is total, returning `0` for every asset when
the total value is `0`, and `value/totalValue × 100` when the total value
is positive. -/
theorem getCurrentPercent_spec (c : Currency) (assets : List Asset) (a : Asset) :
    ((assets.map (getAssetValue c)).sum = 0 → getCurrentPercent c assets a = 0) ∧
    (0 < (assets.map (getAssetValue c)).sum →
      getCurrentPercent c assets a =
        getAssetValue c a / (assets.map (getAssetValue c)).sum * 100) := by
  unfold getCurrentPercent
  rw [totalValue_eq_sum]
  constructor
  · intro h
    rw [if_pos h]
  · intro h
    rw [if_neg (by linarith)]

/-- Witness for C2 at concrete inputs: the zero-total branch on an asset
list whose only asset has price 0, and the positive branch on `[wAsset1]`. -/
theorem getCurrentPercent_spec_witness :
    (([{ wAsset1 with priceEur := 0 }].map (getAssetValue .eur)).sum = 0 ∧
      getCurrentPercent .eur [{ wAsset1 with priceEur := 0 }]
        { wAsset1 with priceEur := 0 } = 0) ∧
    (0 < (([wAsset1]).map (getAssetValue .eur)).sum ∧
      getCurrentPercent .eur [wAsset1] wAsset1 =
        getAssetValue .eur wAsset1 / (([wAsset1]).map (getAssetValue .eur)).sum * 100) := by
  have hz : (([{ wAsset1 with priceEur := 0 }]).map (getAssetValue .eur)).sum = 0 := by
    norm_num [wAsset1, getAssetValue, priceIn, jsOr]
  have hp : (0 : ℚ) < (([wAsset1]).map (getAssetValue .eur)).sum := by
    norm_num [wAsset1, getAssetValue, priceIn, jsOr]
  exact ⟨⟨hz, (getCurrentPercent_spec .eur _ _).1 hz⟩,
    ⟨hp, (getCurrentPercent_spec .eur _ _).2 hp⟩⟩

/-! ## C3: the health score -/

/-- C3: the health score is `100` for an empty list or zero total value;
otherwise it is `max(0, 100 − totalDeviation/2)` rounded to the nearest
integer (`round`), with `totalDeviation` the sum of
`|currentPercent − targetPercent|` over the assets. -/
theorem calculateHealthScore_spec (c : Currency) (assets : List Asset) :
    (assets = [] ∨ totalValue c assets = 0 → calculateHealthScore c assets = 100) ∧
    (assets ≠ [] → totalValue c assets ≠ 0 →
      calculateHealthScore c assets =
        round (max 0 (100 -
          (assets.map (fun a => |getCurrentPercent c assets a - a.targetPercent|)).sum
            / 2))) := by
  have hsimp : calculateHealthScore c assets =
      if assets.length = 0 ∨ totalValue c assets = 0 then 100
      else round (max 0 (100 - (assets.foldl (fun sum a =>
        sum + |getAssetValue c a / totalValue c assets * 100 - jsOr a.targetPercent 0|)
          0) / 2)) := rfl
  constructor
  · intro h
    rw [hsimp, if_pos]
    rcases h with h | h
    · exact Or.inl (by simp [h])
    · exact Or.inr h
  · intro h1 h2
    rw [hsimp, if_neg (by simp [List.length_eq_zero, h1, h2])]
    rw [foldl_add_sum, zero_add]
    simp only [getCurrentPercent, if_neg h2, jsOr_zero]

/-- Witness for C3 at concrete inputs: the empty list scores `100`, and
`[wAsset1]` (value 100, target 0 %) takes the deviation branch. -/
theorem calculateHealthScore_spec_witness :
    calculateHealthScore .eur ([] : List Asset) = 100 ∧
    (([wAsset1] : List Asset) ≠ [] ∧ totalValue .eur [wAsset1] ≠ 0 ∧
      calculateHealthScore .eur [wAsset1] =
        round (max 0 (100 -
          (([wAsset1]).map
            (fun a => |getCurrentPercent .eur [wAsset1] a - a.targetPercent|)).sum
              / 2))) := by
  have hne : totalValue .eur [wAsset1] ≠ 0 := by
    norm_num [totalValue, wAsset1, priceIn, jsOr]
  exact ⟨(calculateHealthScore_spec .eur []).1 (Or.inl rfl),
    by simp, hne, (calculateHealthScore_spec .eur [wAsset1]).2 (by simp) hne⟩

/-! ## C4: current percents sum to 100 -/

/-- C4: in exact arithmetic the current percents sum to `100` whenever the
total value is positive, and each is `0` when the total value is `0`. -/
theorem currentPercent_sum_spec (c : Currency) (assets : List Asset) :
    (0 < totalValue c assets →
      (assets.map (getCurrentPercent c assets)).sum = 100) ∧
    (totalValue c assets = 0 →
      ∀ a ∈ assets, getCurrentPercent c assets a = 0) := by
  constructor
  · intro h
    have h' : totalValue c assets ≠ 0 := ne_of_gt h
    have key : ∀ l : List Asset,
        (l.map (fun a => getAssetValue c a / totalValue c assets * 100)).sum =
          (l.map (getAssetValue c)).sum / totalValue c assets * 100 := by
      intro l
      induction l with
      | nil => simp
      | cons x xs ih => simp [ih, add_div, add_mul]
    have hfun : getCurrentPercent c assets =
        fun a => getAssetValue c a / totalValue c assets * 100 := by
      funext a
      simp [getCurrentPercent, h']
    rw [hfun, key assets, ← totalValue_eq_sum, div_self h']
    norm_num
  · intro h a _
    simp [getCurrentPercent, h]

/-- Witness for C4 at concrete inputs: `[wAsset1]` has positive total value
and percent sum 100; the zero-price singleton has total value 0 and
percent 0. -/
theorem currentPercent_sum_spec_witness :
    (0 < totalValue .eur [wAsset1] ∧
      (([wAsset1]).map (getCurrentPercent .eur [wAsset1])).sum = 100) ∧
    (totalValue .eur [{ wAsset1 with priceEur := 0 }] = 0 ∧
      getCurrentPercent .eur [{ wAsset1 with priceEur := 0 }]
        { wAsset1 with priceEur := 0 } = 0) := by
  have hp : (0 : ℚ) < totalValue .eur [wAsset1] := by
    norm_num [totalValue, wAsset1, priceIn, jsOr]
  have hz : totalValue .eur [{ wAsset1 with priceEur := 0 }] = 0 := by
    norm_num [totalValue, wAsset1, priceIn, jsOr]
  exact ⟨⟨hp, (currentPercent_sum_spec .eur [wAsset1]).1 hp⟩,
    ⟨hz, (currentPercent_sum_spec .eur _).2 hz _ (by simp)⟩⟩

/-! ## C6: per-asset value and total value -/

/-- C6: `value(asset) = holdings × price` in the selected currency (a
zero price contributing `0`), `totalValue` is the sum of the per-asset
values, and an asset with zero holdings has value `0` and current
percent `0` regardless of its price. -/
theorem getAssetValue_spec (c : Currency) (assets : List Asset) (a : Asset) :
    getAssetValue c a = a.holdings * priceIn c a ∧
    totalValue c assets = (assets.map (getAssetValue c)).sum ∧
    (a.holdings = 0 →
      getAssetValue c a = 0 ∧ getCurrentPercent c assets a = 0) := by
  refine ⟨by simp [getAssetValue], totalValue_eq_sum c assets, ?_⟩
  intro h
  have hv : getAssetValue c a = 0 := by simp [getAssetValue, h]
  refine ⟨hv, ?_⟩
  unfold getCurrentPercent
  split
  · rfl
  · simp [hv]

/-- Witness for C6 at a concrete input: a zero-holdings asset with a
nonzero price has value `0` and current percent `0`. -/
theorem getAssetValue_spec_witness :
    Asset.holdings { wAsset1 with holdings := 0 } = 0 ∧
    getAssetValue .eur { wAsset1 with holdings := 0 } = 0 ∧
    getCurrentPercent .eur [wAsset1, { wAsset1 with holdings := 0 }]
      { wAsset1 with holdings := 0 } = 0 := by
  have h : Asset.holdings { wAsset1 with holdings := 0 } = 0 := rfl
  have h2 := (getAssetValue_spec .eur [wAsset1, { wAsset1 with holdings := 0 }]
    { wAsset1 with holdings := 0 }).2.2 h
  exact ⟨h, h2.1, h2.2⟩

/-! ## C7: profit and loss aggregates -/

/-- C7: `totalPnL` is the sum over assets of `value − holdings × buyPrice`,
`totalCostBasis` the sum of `holdings × buyPrice`, and `pnlPercent` is
`totalPnL / totalCostBasis × 100` for a positive cost basis and `0`
otherwise. -/
theorem pnl_spec (c : Currency) (assets : List Asset) :
    totalPnL c assets =
      (assets.map (fun a => getAssetValue c a - a.holdings * a.buyPrice)).sum ∧
    totalCostBasis assets =
      (assets.map (fun a => a.holdings * a.buyPrice)).sum ∧
    (0 < totalCostBasis assets →
      pnlPercent c assets = totalPnL c assets / totalCostBasis assets * 100) ∧
    (totalCostBasis assets ≤ 0 → pnlPercent c assets = 0) := by
  refine ⟨?_, ?_, ?_, ?_⟩
  · unfold totalPnL
    rw [foldl_add_sum, zero_add]
    simp only [getAssetValue, jsOr_zero]
  · unfold totalCostBasis
    rw [foldl_add_sum, zero_add]
    simp only [jsOr_zero]
  · intro h
    simp [pnlPercent, h]
  · intro h
    simp [pnlPercent, not_lt.mpr h]

/-- Scenario D's asset: holdings 5, buy price 80, current price 100. -/
def scenD : Asset := { wAsset1 with holdings := 5 }

/-- Witness for C7 at scenario D: cost basis 400 > 0, so
`pnlPercent = totalPnL/totalCostBasis × 100`; numerically the P&L is 100
and the percentage 25. -/
theorem pnl_spec_witness :
    0 < totalCostBasis [scenD] ∧
    pnlPercent .eur [scenD] = totalPnL .eur [scenD] / totalCostBasis [scenD] * 100 ∧
    totalPnL .eur [scenD] = 100 ∧
    pnlPercent .eur [scenD] = 25 := by
  have hpos : (0 : ℚ) < totalCostBasis [scenD] := by
    norm_num [totalCostBasis, scenD, wAsset1, jsOr]
  have hpnl : totalPnL .eur [scenD] = 100 := by
    norm_num [totalPnL, scenD, wAsset1, priceIn, jsOr]
  have hcb : totalCostBasis [scenD] = 400 := by
    norm_num [totalCostBasis, scenD, wAsset1, jsOr]
  have hpct := (pnl_spec .eur [scenD]).2.2.1 hpos
  refine ⟨hpos, hpct, hpnl, ?_⟩
  rw [hpct, hpnl, hcb]
  norm_num

/-! ## C8: the displayed listing is a stable descending sort by value -/

/-- C8: `sortedAssets` is a permutation of the asset list, sorted in
descending order of per-asset value, and the sort is stable: two assets
with equal value that appear in some order in the input (the pair is a
sublist) appear in the same order in the output. -/
theorem sortedAssets_spec (c : Currency) (assets : List Asset) :
    List.Perm (sortedAssets c assets) assets ∧
    (sortedAssets c assets).Pairwise
      (fun a b => getAssetValue c b ≤ getAssetValue c a) ∧
    (∀ a b : Asset, List.Sublist [a, b] assets →
      getAssetValue c a = getAssetValue c b →
      List.Sublist [a, b] (sortedAssets c assets)) := by
  have htrans : ∀ x y z : Asset, valueLe c x y → valueLe c y z → valueLe c x z := by
    intro x y z hxy hyz
    simp only [valueLe, decide_eq_true_eq] at *
    exact le_trans hyz hxy
  have htotal : ∀ x y : Asset, valueLe c x y || valueLe c y x := by
    intro x y
    simp only [valueLe, Bool.or_eq_true, decide_eq_true_eq]
    exact le_total _ _
  refine ⟨List.mergeSort_perm assets (valueLe c), ?_, ?_⟩
  · have h := List.sorted_mergeSort htrans htotal assets
    exact h.imp (fun hab => by simpa [valueLe] using hab)
  · intro a b hsub heq
    exact List.pair_sublist_mergeSort htrans htotal
      (by simp [valueLe, heq]) hsub

/-- A twin of `wAsset1` under a different id, with the same value. -/
def wAsset2 : Asset := { wAsset1 with id := "wrapped-bitcoin", symbol := "WBTC" }

/-- Witness for C8 at a concrete input: the equal-value pair
`[wAsset1, wAsset2]` keeps its order in the sorted output. -/
theorem sortedAssets_spec_witness :
    List.Sublist [wAsset1, wAsset2] ([wAsset1, wAsset2] : List Asset) ∧
    getAssetValue .eur wAsset1 = getAssetValue .eur wAsset2 ∧
    List.Sublist [wAsset1, wAsset2] (sortedAssets .eur [wAsset1, wAsset2]) := by
  have h1 : List.Sublist [wAsset1, wAsset2] ([wAsset1, wAsset2] : List Asset) :=
    List.Sublist.refl _
  have h2 : getAssetValue .eur wAsset1 = getAssetValue .eur wAsset2 := by
    norm_num [getAssetValue, priceIn, wAsset1, wAsset2, jsOr]
  exact ⟨h1, h2, (sortedAssets_spec .eur [wAsset1, wAsset2]).2.2 _ _ h1 h2⟩

/-! ## C9: the bulk price-refresh merge is a frame-preserving update by id -/

/-- C9: the price-refresh merge maps each asset through a per-asset update
keyed by its own id, leaving the list's length, order and every non-price
field unchanged, and an asset whose id is absent from the response keeps
its stored price values. -/
theorem fetchPrices_merge_spec (resp : String → Option PriceEntry)
    (assets : List Asset) (a : Asset) :
    fetchPricesMerge resp assets = assets.map (mergeOne resp) ∧
    (fetchPricesMerge resp assets).map nonPriceFields =
      assets.map nonPriceFields ∧
    (resp a.id = none →
      (mergeOne resp a).priceEur = a.priceEur ∧
      (mergeOne resp a).priceUsd = a.priceUsd) := by
  refine ⟨rfl, ?_, ?_⟩
  · unfold fetchPricesMerge
    rw [List.map_map]
    rfl
  · intro h
    constructor
    · simp [mergeOne, h, optOr]
    · simp [mergeOne, h, optOr]

/-- Witness for C9 at a concrete input: merging an empty response into
`[wAsset1]` keeps both stored prices. -/
theorem fetchPrices_merge_spec_witness :
    ((fun _ : String => (none : Option PriceEntry)) wAsset1.id = none) ∧
    (mergeOne (fun _ => none) wAsset1).priceEur = wAsset1.priceEur ∧
    (mergeOne (fun _ => none) wAsset1).priceUsd = wAsset1.priceUsd := by
  have h := (fetchPrices_merge_spec (fun _ => none) [wAsset1] wAsset1).2.2 rfl
  exact ⟨rfl, h.1, h.2⟩

/-! ## C10: a fetched price of exactly 0 behaves like absent data -/

/-- C10: because the merge uses falsy coalescing
(`data[id]?.eur || asset.priceEur || 0`), a response that carries the
price `0` for an asset's id produces the same stored eur price as a
response with no data for that id; in particular an asset with a nonzero
stored price keeps it instead of being updated to `0`. -/
theorem merge_zero_price_spec (resp : String → Option PriceEntry) (a : Asset)
    (e : PriceEntry) (h1 : resp a.id = some e) (h2 : e.eur = some 0) :
    (mergeOne resp a).priceEur = (mergeOne (fun _ => none) a).priceEur ∧
    (a.priceEur ≠ 0 → (mergeOne resp a).priceEur = a.priceEur) := by
  have hb : (resp a.id).bind PriceEntry.eur = some 0 := by
    rw [h1]
    exact h2
  constructor
  · simp [mergeOne, hb, optOr]
  · intro hne
    simp [mergeOne, hb, optOr, jsOr, hne]

/-- A response that reports price 0 in eur for every id. -/
def zeroEurResp : String → Option PriceEntry :=
  fun _ => some { eur := some 0, usd := some 5, eur24hChange := none }

/-- Witness for C10 at a concrete input: under `zeroEurResp`, `wAsset1`
(stored eur price 100) keeps 100 instead of being updated to 0. -/
theorem merge_zero_price_spec_witness :
    zeroEurResp wAsset1.id =
      some { eur := some 0, usd := some 5, eur24hChange := none } ∧
    wAsset1.priceEur ≠ 0 ∧
    (mergeOne zeroEurResp wAsset1).priceEur = wAsset1.priceEur := by
  have hne : wAsset1.priceEur ≠ 0 := by norm_num [wAsset1]
  exact ⟨rfl, hne,
    (merge_zero_price_spec zeroEurResp wAsset1 _ rfl rfl).2 hne⟩

/-! ## C5: invariants after state-mutating operations

`updateAsset` writes `parseFloat(value) || 0`: an unparsable input becomes
`0`, but a *negative* parse result is stored unchanged — nothing clamps it
— and the same write path handles `targetPercent`, so in the v2 component
a target outside `[0, 100]` is stored as given (only the earlier
`App.jsx` `updateTarget` clamps).  The claimed invariant therefore fails. -/

/-- Counterexample to C5 at concrete inputs: updating `wAsset1`'s holdings
with the parsed input `−5` stores `−5` (negative), and updating its
target percent with `150` stores `150` (not clamped to `[0, 100]`). -/
theorem update_invariants_cex :
    updateAsset [wAsset1] "bitcoin" (FieldUpdate.holdings (some (-5))) =
      [{ wAsset1 with holdings := -5 }] ∧
    ({ wAsset1 with holdings := -5 } : Asset).holdings < 0 ∧
    updateAsset [wAsset1] "bitcoin" (FieldUpdate.targetPercent (some 150)) =
      [{ wAsset1 with targetPercent := 150 }] ∧
    ¬ ({ wAsset1 with targetPercent := 150 } : Asset).targetPercent ≤ 100 := by
  refine ⟨?_, by norm_num, ?_, by norm_num⟩
  · norm_num [updateAsset, applyField, parseFloatOr0, jsOr, wAsset1]
  · norm_num [updateAsset, applyField, parseFloatOr0, jsOr, wAsset1]

/-- C5 amended: the write paths default unparsable (`NaN`) numeric input
to `0` and `addAsset` initialises every numeric field to `0`, and the
earlier `App.jsx` `updateTarget` clamps `targetPercent` to `[0, 100]`;
but negative parsed input is stored unchanged by `updateAsset` and
`updateHoldings` (no nonnegativity clamp), and the v2 `updateAsset`
applies no `[0, 100]` clamp to `targetPercent`. -/
theorem update_invariants_amended (assets : List Asset) (id : String)
    (v : Option ℚ) (coin : Coin) :
    (∀ a ∈ updateAsset assets id (FieldUpdate.holdings none),
      a.id = id → a.holdings = 0) ∧
    (∀ a ∈ updateHoldings assets id none, a.id = id → a.holdings = 0) ∧
    (∀ a ∈ updateTarget assets id v, a.id = id →
      0 ≤ a.targetPercent ∧ a.targetPercent ≤ 100) ∧
    (∀ a ∈ addAsset assets coin, a ∈ assets ∨
      (a.holdings = 0 ∧ a.buyPrice = 0 ∧ a.targetPercent = 0 ∧
        a.priceEur = 0 ∧ a.priceUsd = 0)) := by
  refine ⟨?_, ?_, ?_, ?_⟩
  · intro a ha hid
    rcases List.mem_map.mp ha with ⟨b, _, hb⟩
    by_cases h : b.id = id
    · rw [if_pos h] at hb
      rw [← hb]
      rfl
    · rw [if_neg h] at hb
      rw [← hb] at hid
      exact absurd hid h
  · intro a ha hid
    rcases List.mem_map.mp ha with ⟨b, _, hb⟩
    by_cases h : b.id = id
    · rw [if_pos h] at hb
      rw [← hb]
      rfl
    · rw [if_neg h] at hb
      rw [← hb] at hid
      exact absurd hid h
  · intro a ha hid
    rcases List.mem_map.mp ha with ⟨b, _, hb⟩
    by_cases h : b.id = id
    · rw [if_pos h] at hb
      rw [← hb]
      constructor
      · exact le_min (by norm_num) (le_max_left 0 _)
      · exact min_le_left 100 _
    · rw [if_neg h] at hb
      rw [← hb] at hid
      exact absurd hid h
  · intro a ha
    unfold addAsset at ha
    split at ha
    · exact Or.inl ha
    · rcases List.mem_append.mp ha with h | h
      · exact Or.inl h
      · rw [List.mem_singleton.mp h]
        exact Or.inr ⟨rfl, rfl, rfl, rfl, rfl⟩

/-- Witness for C5's amended claim at concrete inputs: an unparsable
holdings edit stores `0`, a target edit of `250` through `updateTarget`
stores a value inside `[0, 100]`, and a freshly added coin starts with
all numeric fields `0`. -/
theorem update_invariants_amended_witness :
    ({ wAsset1 with holdings := 0 } ∈
        updateAsset [wAsset1] "bitcoin" (FieldUpdate.holdings none) ∧
      ({ wAsset1 with holdings := 0 } : Asset).holdings = 0) ∧
    ({ wAsset1 with targetPercent := 100 } ∈
        updateTarget [wAsset1] "bitcoin" (some 250) ∧
      0 ≤ ({ wAsset1 with targetPercent := 100 } : Asset).targetPercent ∧
      ({ wAsset1 with targetPercent := 100 } : Asset).targetPercent ≤ 100) ∧
    (∀ a ∈ addAsset [] ⟨"solana", "sol", "Solana", ""⟩,
      a ∈ ([] : List Asset) ∨
        (a.holdings = 0 ∧ a.buyPrice = 0 ∧ a.targetPercent = 0 ∧
          a.priceEur = 0 ∧ a.priceUsd = 0)) := by
  have hm1 : { wAsset1 with holdings := 0 } ∈
      updateAsset [wAsset1] "bitcoin" (FieldUpdate.holdings none) := by
    norm_num [updateAsset, applyField, parseFloatOr0, wAsset1]
  have hm2 : { wAsset1 with targetPercent := 100 } ∈
      updateTarget [wAsset1] "bitcoin" (some 250) := by
    norm_num [updateTarget, parseFloatOr0, jsOr, wAsset1]
  refine ⟨⟨hm1, ?_⟩, ⟨hm2, ?_⟩, ?_⟩
  · exact (update_invariants_amended [wAsset1] "bitcoin" none
      ⟨"solana", "sol", "Solana", ""⟩).1 _ hm1 rfl
  · exact (update_invariants_amended [wAsset1] "bitcoin" (some 250)
      ⟨"solana", "sol", "Solana", ""⟩).2.2.1 _ hm2 rfl
  · exact (update_invariants_amended [] "bitcoin" none
      ⟨"solana", "sol", "Solana", ""⟩).2.2.2

end Portfolio
